import Mathlib

/-!
Verification of the json-array-stream core: a byte-level JSON depth analyzer
(src/json_depth_analyzer.rs) and an incremental array splitter (src/lib.rs).

The analyzer state is the Vec of ParserState tags; we embed it as a list with
the head as top of stack (Rust pushes and pops at the end of the Vec).
Bytes are embedded as Nat (the u8 value).
-/

/-- The ParserState enum of src/json_depth_analyzer.rs. -/
inductive ParserState where
  | Object
  | Array
  | String
  | StringEscape
  | StringHex4
  | StringHex3
  | StringHex2
  | StringHex1
  deriving DecidableEq

/-- The ParserError enum of src/json_depth_analyzer.rs. -/
inductive ParserError where
  | WrongState (got : Option ParserState) (expected : ParserState)
  | WrongHexCharacter (got : Nat)
  | WrongEscapeCharacter (got : Nat)
  deriving DecidableEq

/-- Embeds u8::is_ascii_hexdigit: 0-9, A-F, a-f. -/
def isAsciiHexdigit (c : Nat) : Bool :=
  decide (48 ≤ c ∧ c ≤ 57) || decide (65 ≤ c ∧ c ≤ 70) || decide (97 ≤ c ∧ c ≤ 102)

/-- Embeds the check of the escape arm in process: the byte is one of the
characters of the Rust string literal with quote, backslash, slash, b, f, n,
r, t (bytes 34 92 47 98 102 110 114 116). -/
def isEscapeByte (c : Nat) : Bool :=
  c == 34 || c == 92 || c == 47 || c == 98 || c == 102 || c == 110 || c == 114 || c == 116

/-- Embeds JsonDepthAnalyzer::process. The Rust match on
(self.state.last(), c) is specialized by the top of the stack; within each
top-of-stack case the conditions appear in the order of the Rust match arms,
so first-match semantics are preserved. Byte literals: 34 is the quote,
92 the backslash, 117 the letter u, 123 and 125 the braces, 91 and 93 the
square brackets. Returns the new stack and the Result (none = Ok). -/
def process (st : List ParserState) (c : Nat) : List ParserState × Option ParserError :=
  match st with
  | ParserState.String :: rest =>
    if c = 34 then (rest, none)
    else if c = 92 then (ParserState.StringEscape :: rest, none)
    else (ParserState.String :: rest, none)
  | ParserState.StringEscape :: rest =>
    if c = 34 then (ParserState.String :: ParserState.StringEscape :: rest, none)
    else if c = 117 then (ParserState.StringHex4 :: rest, none)
    else (ParserState.String :: rest,
      if isEscapeByte c then none else some (ParserError.WrongEscapeCharacter c))
  | ParserState.StringHex4 :: rest =>
    if c = 34 then (ParserState.String :: ParserState.StringHex4 :: rest, none)
    else (ParserState.StringHex3 :: rest,
      if isAsciiHexdigit c then none else some (ParserError.WrongHexCharacter c))
  | ParserState.StringHex3 :: rest =>
    if c = 34 then (ParserState.String :: ParserState.StringHex3 :: rest, none)
    else (ParserState.StringHex2 :: rest,
      if isAsciiHexdigit c then none else some (ParserError.WrongHexCharacter c))
  | ParserState.StringHex2 :: rest =>
    if c = 34 then (ParserState.String :: ParserState.StringHex2 :: rest, none)
    else (ParserState.StringHex1 :: rest,
      if isAsciiHexdigit c then none else some (ParserError.WrongHexCharacter c))
  | ParserState.StringHex1 :: rest =>
    if c = 34 then (ParserState.String :: ParserState.StringHex1 :: rest, none)
    else (ParserState.String :: rest,
      if isAsciiHexdigit c then none else some (ParserError.WrongHexCharacter c))
  | ParserState.Object :: rest =>
    if c = 34 then (ParserState.String :: ParserState.Object :: rest, none)
    else if c = 123 then (ParserState.Object :: ParserState.Object :: rest, none)
    else if c = 125 then (rest, none)
    else if c = 91 then (ParserState.Array :: ParserState.Object :: rest, none)
    else if c = 93 then (ParserState.Object :: rest,
      some (ParserError.WrongState (some ParserState.Object) ParserState.Array))
    else (ParserState.Object :: rest, none)
  | ParserState.Array :: rest =>
    if c = 34 then (ParserState.String :: ParserState.Array :: rest, none)
    else if c = 123 then (ParserState.Object :: ParserState.Array :: rest, none)
    else if c = 125 then (ParserState.Array :: rest,
      some (ParserError.WrongState (some ParserState.Array) ParserState.Object))
    else if c = 91 then (ParserState.Array :: ParserState.Array :: rest, none)
    else if c = 93 then (rest, none)
    else (ParserState.Array :: rest, none)
  | [] =>
    if c = 34 then ([ParserState.String], none)
    else if c = 123 then ([ParserState.Object], none)
    else if c = 125 then ([], some (ParserError.WrongState none ParserState.Object))
    else if c = 91 then ([ParserState.Array], none)
    else if c = 93 then ([], some (ParserError.WrongState none ParserState.Array))
    else ([], none)

/-- Embeds JsonDepthAnalyzer::depth: the stack length. -/
def depth (st : List ParserState) : Nat :=
  st.length

/-- Processes a byte sequence in order, returning the final stack and the
per-byte Results (none = Ok). -/
def processAll : List ParserState → List Nat → List ParserState × List (Option ParserError)
  | st, [] => (st, [])
  | st, c :: cs =>
    let r := process st c
    let rest := processAll r.1 cs
    (rest.1, r.2 :: rest.2)

/-- C1: the claim quantifies over all well-formed inputs including the
escaped-quote escape. The code violates it: on the well-formed string
literal with an escaped quote (bytes 34 92 34 34, the JSON text quote
backslash quote quote) every process call returns Ok, yet the final stack is
[StringEscape], so depth is 1 and not 0. The match arm for any quote byte
precedes the StringEscape arms, so the escaped quote pushes a fresh String
state instead of completing the escape. -/
theorem c1_escaped_quote_breaks_depth :
    processAll [] [34, 92, 34, 34] = ([ParserState.StringEscape], [none, none, none, none]) ∧
    depth (processAll [] [34, 92, 34, 34]).1 = 1 :=
  ⟨rfl, rfl⟩

/-- C2: the claim says that with top of stack StringEscape a quote byte (34,
one of the eight listed escape characters) replaces the top with String at
unchanged depth. The code violates it: the state [StringEscape] is reachable
(bytes 34 92 from fresh), and processing byte 34 there pushes String, giving
stack [String, StringEscape] of depth 2 with Ok, instead of [String] of
depth 1. -/
theorem c2_escape_quote_pushes_instead_of_replacing :
    processAll [] [34, 92] = ([ParserState.StringEscape], [none, none]) ∧
    process [ParserState.StringEscape] 34 =
      ([ParserState.String, ParserState.StringEscape], none) ∧
    depth [ParserState.String, ParserState.StringEscape] = 2 :=
  ⟨rfl, rfl, rfl⟩

/-- True on the String-family tags (everything except Object and Array). -/
def isStringTag : ParserState → Bool
  | ParserState.Object => false
  | ParserState.Array => false
  | _ => true

/-- True when the stack holds only Object and Array tags. -/
def structuralOnly (l : List ParserState) : Bool :=
  l.all (fun t => !isStringTag t)

/-- The stack invariant of the spec: the String-family tags form a
contiguous run at the top (head of the list), with only Object and Array
tags below them. -/
def goodStack : List ParserState → Bool
  | [] => true
  | t :: rest => if isStringTag t then goodStack rest else structuralOnly (t :: rest)

theorem goodStack_of_structuralOnly {l : List ParserState}
    (h : structuralOnly l = true) : goodStack l = true := by
  cases l with
  | nil => rfl
  | cons t r => cases t <;> simp_all [structuralOnly, goodStack, isStringTag]

theorem process_preserves_goodStack (l : List ParserState) (c : Nat)
    (h : goodStack l = true) : goodStack (process l c).1 = true := by
  cases l with
  | nil =>
    simp only [process]
    split_ifs <;> simp_all [goodStack, structuralOnly, isStringTag]
  | cons t rest =>
    cases t <;> simp only [process] <;> split_ifs <;>
      first
      | (apply goodStack_of_structuralOnly
         simp_all [goodStack, structuralOnly, isStringTag, List.all_cons]
         done)
      | simp_all [goodStack, structuralOnly, isStringTag, List.all_cons]

theorem processAll_preserves_goodStack (cs : List Nat) :
    ∀ l : List ParserState, goodStack l = true → goodStack (processAll l cs).1 = true := by
  induction cs with
  | nil => intro l h; exact h
  | cons c cs ih =>
    intro l h
    simp only [processAll]
    exact ih _ (process_preserves_goodStack l c h)

/-- C7: for every sequence of process calls starting from a freshly
constructed analyzer (the empty stack), the resulting stack never contains
an Object or Array tag above a String-family tag: the String-family tags
always form a contiguous run at the top of the stack. Every intermediate
state is covered because the byte list is universally quantified. -/
theorem c7_string_run_at_top (cs : List Nat) :
    goodStack (processAll [] cs).1 = true :=
  processAll_preserves_goodStack cs [] rfl

/-- Models Vec::last_mut().unwrap() followed by writing the top slot: on an
empty stack the unwrap panics, embedded as none. -/
def setTop (st : List ParserState) (t : ParserState) : Option (List ParserState) :=
  match st with
  | [] => none
  | _ :: rest => some (t :: rest)

/-- Embeds JsonDepthAnalyzer::process with every last_mut().unwrap() call of
the source made explicit through setTop: the arms that overwrite the top of
the stack (the backslash arm, the u arm, the four hex arms and the escape
arm) go through setTop and return none if it panics. All other arms are the
same as in process. -/
def processChecked (st : List ParserState) (c : Nat) :
    Option (List ParserState × Option ParserError) :=
  match st with
  | ParserState.String :: rest =>
    if c = 34 then some (rest, none)
    else if c = 92 then (setTop st ParserState.StringEscape).map (fun st2 => (st2, none))
    else some (ParserState.String :: rest, none)
  | ParserState.StringEscape :: rest =>
    if c = 34 then some (ParserState.String :: ParserState.StringEscape :: rest, none)
    else if c = 117 then (setTop st ParserState.StringHex4).map (fun st2 => (st2, none))
    else (setTop st ParserState.String).map (fun st2 =>
      (st2, if isEscapeByte c then none else some (ParserError.WrongEscapeCharacter c)))
  | ParserState.StringHex4 :: rest =>
    if c = 34 then some (ParserState.String :: ParserState.StringHex4 :: rest, none)
    else (setTop st ParserState.StringHex3).map (fun st2 =>
      (st2, if isAsciiHexdigit c then none else some (ParserError.WrongHexCharacter c)))
  | ParserState.StringHex3 :: rest =>
    if c = 34 then some (ParserState.String :: ParserState.StringHex3 :: rest, none)
    else (setTop st ParserState.StringHex2).map (fun st2 =>
      (st2, if isAsciiHexdigit c then none else some (ParserError.WrongHexCharacter c)))
  | ParserState.StringHex2 :: rest =>
    if c = 34 then some (ParserState.String :: ParserState.StringHex2 :: rest, none)
    else (setTop st ParserState.StringHex1).map (fun st2 =>
      (st2, if isAsciiHexdigit c then none else some (ParserError.WrongHexCharacter c)))
  | ParserState.StringHex1 :: rest =>
    if c = 34 then some (ParserState.String :: ParserState.StringHex1 :: rest, none)
    else (setTop st ParserState.String).map (fun st2 =>
      (st2, if isAsciiHexdigit c then none else some (ParserError.WrongHexCharacter c)))
  | ParserState.Object :: rest =>
    if c = 34 then some (ParserState.String :: ParserState.Object :: rest, none)
    else if c = 123 then some (ParserState.Object :: ParserState.Object :: rest, none)
    else if c = 125 then some (rest, none)
    else if c = 91 then some (ParserState.Array :: ParserState.Object :: rest, none)
    else if c = 93 then some (ParserState.Object :: rest,
      some (ParserError.WrongState (some ParserState.Object) ParserState.Array))
    else some (ParserState.Object :: rest, none)
  | ParserState.Array :: rest =>
    if c = 34 then some (ParserState.String :: ParserState.Array :: rest, none)
    else if c = 123 then some (ParserState.Object :: ParserState.Array :: rest, none)
    else if c = 125 then some (ParserState.Array :: rest,
      some (ParserError.WrongState (some ParserState.Array) ParserState.Object))
    else if c = 91 then some (ParserState.Array :: ParserState.Array :: rest, none)
    else if c = 93 then some (rest, none)
    else some (ParserState.Array :: rest, none)
  | [] =>
    if c = 34 then some ([ParserState.String], none)
    else if c = 123 then some ([ParserState.Object], none)
    else if c = 125 then some ([], some (ParserError.WrongState none ParserState.Object))
    else if c = 91 then some ([ParserState.Array], none)
    else if c = 93 then some ([], some (ParserError.WrongState none ParserState.Array))
    else some ([], none)

/-- C9: process never panics. Every arm that dereferences the top of the
stack through last_mut().unwrap() only fires on a pattern that guarantees a
non-empty stack, so the unwrap-explicit model processChecked succeeds and
agrees with the total function process on every state and every byte. -/
theorem c9_process_never_panics (st : List ParserState) (c : Nat) :
    processChecked st c = some (process st c) := by
  cases st with
  | nil => simp only [processChecked, process]; split_ifs <;> rfl
  | cons t rest =>
    cases t <;> simp only [processChecked, process, setTop, Option.map] <;>
      split_ifs <;> rfl

/-- C8: processing the bytes of the text left-bracket left-brace
right-bracket (91 123 93) from a fresh analyzer returns exactly one error,
on the stray right bracket (a WrongState with Object found and Array
expected), leaving the stack [Object, Array]; processing right-brace
right-bracket (125 93) afterwards returns Ok on both bytes and ends at
depth 0. -/
theorem c8_error_recovery :
    processAll [] [91, 123, 93] =
      ([ParserState.Object, ParserState.Array],
        [none, none,
          some (ParserError.WrongState (some ParserState.Object) ParserState.Array)]) ∧
    processAll [ParserState.Object, ParserState.Array] [125, 93] = ([], [none, none]) ∧
    depth (processAll [ParserState.Object, ParserState.Array] [125, 93]).1 = 0 :=
  ⟨rfl, rfl, rfl⟩

/-- The JsonStreamError enum of src/lib.rs. The Io variant is only ever
built with ErrorKind::UnexpectedEof for a premature end of input, so the
payload is dropped in the embedding. -/
inductive JsonStreamError where
  | Io
  | Parser (e : ParserError)

/-- The observable outcome of one poll_next call. The Rust return type is
Poll of Option of Result; the chunk source is embedded as an always-ready
finite list of chunks, so Poll::Pending never occurs: a poll either ends
the sequence (Ready None) or yields one item (Ready Some). -/
inductive PollOut where
  | readyNone
  | item (r : Except JsonStreamError (List Nat))

/-- What one byte of the current chunk does inside the for loop of
poll_next: continue the loop, return a parser error, return an emitted
span, or return Ready None (the suppressed empty emission that ends the
stream). -/
inductive ByteOutcome where
  | cont
  | parseErr (e : ParserError)
  | emitSpan (v : List Nat)
  | suppress

/-- The four per-element fields of the Rust JsonArrayStream struct that the
per-byte loop body mutates: analyzer, buffer, comma and end (endFlag here,
since end is a Lean keyword). -/
structure SplitCore where
  analyzer : List ParserState
  buffer : List Nat
  comma : Bool
  endFlag : Bool
  deriving DecidableEq

/-- The JsonArrayStream struct: the four mutable scalar fields grouped in
core, the pinned chunk stream embedded as the list of chunks not yet
pulled, and the current chunk iterator embedded as its remaining bytes. -/
structure JsonArrayStream where
  core : SplitCore
  stream : List (List Nat)
  chunk : Option (List Nat)

/-- Embeds the Rust expression (c as char).is_whitespace() for a byte c:
the char is the Unicode scalar with the same value (Latin-1), and the
Unicode White_Space code points below 256 are tab, line feed, vertical tab,
form feed, carriage return, space, next line (133) and no-break space
(160). -/
def isWhitespaceByte (c : Nat) : Bool :=
  c == 9 || c == 10 || c == 11 || c == 12 || c == 13 || c == 32 || c == 133 || c == 160

/-- Embeds the body of the for loop in poll_next for one byte c: record the
initial depth, feed the byte to the analyzer (the question mark operator
returns the error immediately, leaving buffer and flags untouched), discard
bytes seen at depth 0, then the emit decision chain: comma at depth 1 sets
the comma flag and emits (the comma flag has just been set, so the
suppression check never fires there); whitespace at depth 1 is discarded;
depth returning to 0 sets the end flag and emits unless both the buffer is
empty and the comma flag is unset (then Ready None is returned); any other
byte is appended to the buffer. Emission hands off the buffer and swaps in
an empty one; the comma flag is never written back to false. -/
def processByte (s : SplitCore) (c : Nat) : SplitCore × ByteOutcome :=
  let initialDepth := s.analyzer.length
  let r := process s.analyzer c
  match r.2 with
  | some e => ({ s with analyzer := r.1 }, ByteOutcome.parseErr e)
  | none =>
    if initialDepth = 0 then ({ s with analyzer := r.1 }, ByteOutcome.cont)
    else if initialDepth = 1 ∧ c = 44 then
      ({ analyzer := r.1, buffer := [], comma := true, endFlag := s.endFlag },
        ByteOutcome.emitSpan s.buffer)
    else if initialDepth = 1 ∧ isWhitespaceByte c then
      ({ s with analyzer := r.1 }, ByteOutcome.cont)
    else if r.1.length = 0 then
      if s.buffer = [] ∧ s.comma = false then
        ({ s with analyzer := r.1, endFlag := true }, ByteOutcome.suppress)
      else
        ({ s with analyzer := r.1, endFlag := true, buffer := [] },
          ByteOutcome.emitSpan s.buffer)
    else
      ({ s with analyzer := r.1, buffer := s.buffer ++ [c] }, ByteOutcome.cont)

/-- Embeds the for loop of poll_next over the remaining bytes of the
current chunk: runs processByte until a byte returns out of poll_next or
the chunk is exhausted. Returns the mutated core, the bytes left in the
chunk iterator, and the early return if there was one (none means the chunk
was consumed completely). -/
def runChunk : SplitCore → List Nat → SplitCore × List Nat × Option PollOut
  | s, [] => (s, [], none)
  | s, c :: rest =>
    match processByte s c with
    | (s1, ByteOutcome.cont) => runChunk s1 rest
    | (s1, ByteOutcome.parseErr e) =>
      (s1, rest, some (PollOut.item (Except.error (JsonStreamError.Parser e))))
    | (s1, ByteOutcome.emitSpan v) => (s1, rest, some (PollOut.item (Except.ok v)))
    | (s1, ByteOutcome.suppress) => (s1, rest, some PollOut.readyNone)

/-- Embeds the outer loop of poll_next once the current chunk is gone:
poll the source; Ready None yields the UnexpectedEof io error, Ready Some
installs the chunk and keeps looping. The chunk field of the result records
the remaining bytes of the chunk that returned (none when the source was
found exhausted). -/
def pollStream : SplitCore → List (List Nat) → JsonArrayStream × PollOut
  | s, [] => (⟨s, [], none⟩, PollOut.item (Except.error JsonStreamError.Io))
  | s, h :: t =>
    match runChunk s h with
    | (s1, rest, some out) => (⟨s1, t, some rest⟩, out)
    | (s1, _, none) => pollStream s1 t

/-- Embeds JsonArrayStream::poll_next: if the end flag is set return Ready
None at once; otherwise consume the current chunk if there is one, then
keep pulling chunks from the source. -/
def poll_next (s : JsonArrayStream) : JsonArrayStream × PollOut :=
  if s.core.endFlag then (s, PollOut.readyNone)
  else
    match s.chunk with
    | some bytes =>
      match runChunk s.core bytes with
      | (s1, rest, some out) => (⟨s1, s.stream, some rest⟩, out)
      | (s1, _, none) => pollStream s1 s.stream
    | none => pollStream s.core s.stream

/-- Embeds stream_json_array: a fresh splitter over the given chunks. -/
def streamJsonArray (chunks : List (List Nat)) : JsonArrayStream :=
  ⟨⟨[], [], false, false⟩, chunks, none⟩

/-- Drives the splitter for at most n polls, collecting the yielded items in
order; the boolean is true when a poll returned Ready None (the sequence
completed) within the fuel. -/
def drive : Nat → JsonArrayStream → List (Except JsonStreamError (List Nat)) × Bool
  | 0, _ => ([], false)
  | Nat.succ n, s =>
    match poll_next s with
    | (_, PollOut.readyNone) => ([], true)
    | (s1, PollOut.item r) =>
      let p := drive n s1
      (r :: p.1, p.2)

/-- C4: splitting the single chunk with bytes of left-bracket 4 2 space
comma space right-bracket (the text of the dangling-comma test) yields
exactly the two successful spans 4 2 and the empty span, in that order,
and then the sequence completes; no errors occur. Ten polls are ample fuel:
the third poll already returns Ready None. -/
theorem c4_dangling_comma :
    drive 10 (streamJsonArray [[91, 52, 50, 32, 44, 32, 93]]) =
      ([Except.ok [52, 50], Except.ok []], true) :=
  rfl

theorem processByte_emit_buffer (s : SplitCore) (c : Nat) (s1 : SplitCore) (v : List Nat)
    (h : processByte s c = (s1, ByteOutcome.emitSpan v)) : s1.buffer = [] := by
  rcases hp : process s.analyzer c with ⟨a, res⟩
  simp only [processByte, hp] at h
  cases res with
  | some e => simp at h
  | none =>
    simp only at h
    split_ifs at h <;> simp at h <;>
      (obtain ⟨h1, h2⟩ := h
       subst h1
       rfl)

theorem runChunk_ok_buffer (bytes : List Nat) :
    ∀ (s s1 : SplitCore) (rest v : List Nat),
      runChunk s bytes = (s1, rest, some (PollOut.item (Except.ok v))) → s1.buffer = [] := by
  induction bytes with
  | nil => intro s s1 rest v h; simp [runChunk] at h
  | cons c bs ih =>
    intro s s1 rest v h
    simp only [runChunk] at h
    rcases hp : processByte s c with ⟨s2, o⟩
    rw [hp] at h
    cases o with
    | cont => exact ih s2 s1 rest v h
    | parseErr e => simp at h
    | emitSpan w =>
      simp only at h
      injection h with h1 h2
      rw [← h1]
      exact processByte_emit_buffer s c s2 w hp
    | suppress => simp at h

theorem pollStream_ok_buffer (stream : List (List Nat)) :
    ∀ (s : SplitCore) (t : JsonArrayStream) (v : List Nat),
      pollStream s stream = (t, PollOut.item (Except.ok v)) → t.core.buffer = [] := by
  induction stream with
  | nil => intro s t v h; simp [pollStream] at h
  | cons ch rest ih =>
    intro s t v h
    simp only [pollStream] at h
    rcases hr : runChunk s ch with ⟨s1, left, o⟩
    rw [hr] at h
    cases o with
    | some out =>
      simp only at h
      injection h with h1 h2
      subst h1 h2
      exact runChunk_ok_buffer ch s s1 left v hr
    | none => exact ih s1 t v h

/-- C3 amended: whenever a poll of the splitter emits an element (returns a
successful span), the post-state has an empty accumulation buffer. The
comma-flag half of the claim is false (see the counterexample): poll_next
never writes the comma flag back to false, so it keeps its value across
emissions. -/
theorem c3_emission_resets_buffer (s t : JsonArrayStream) (v : List Nat)
    (h : poll_next s = (t, PollOut.item (Except.ok v))) : t.core.buffer = [] := by
  unfold poll_next at h
  split_ifs at h with he
  · simp at h
  · cases hc : s.chunk with
    | none =>
      rw [hc] at h
      exact pollStream_ok_buffer s.stream s.core t v h
    | some bytes =>
      rw [hc] at h
      simp only at h
      rcases hr : runChunk s.core bytes with ⟨s1, left, o⟩
      rw [hr] at h
      cases o with
      | some out =>
        simp only at h
        injection h with h1 h2
        subst h1 h2
        exact runChunk_ok_buffer bytes s.core s1 left v hr
      | none => exact pollStream_ok_buffer s.stream s1 t v h

/-- C3 witness: on the single chunk left-bracket 1 comma (bytes 91 49 44)
the first poll emits the span 1; the amended theorem applies and the
post-state buffer is empty. -/
theorem c3_emission_resets_buffer_witness :
    poll_next (streamJsonArray [[91, 49, 44]]) =
      (⟨⟨[ParserState.Array], [], true, false⟩, [], some []⟩,
        PollOut.item (Except.ok [49])) ∧
    (⟨⟨[ParserState.Array], [], true, false⟩, [], some []⟩ : JsonArrayStream).core.buffer = [] :=
  ⟨rfl, c3_emission_resets_buffer (streamJsonArray [[91, 49, 44]])
    ⟨⟨[ParserState.Array], [], true, false⟩, [], some []⟩ [49] rfl⟩

/-- C3 counterexample: the claim also says every emission leaves the comma
flag reset to false. On the single chunk left-bracket 1 comma the first
poll emits the span 1 and the post-state comma flag is true, because
poll_next sets the flag on the comma byte and never resets it. (Resetting
it on emission would change observable behaviour: the dangling-comma case
of C4 emits a final empty element only because the flag is still set.) -/
theorem c3_comma_not_reset_counterexample :
    (poll_next (streamJsonArray [[91, 49, 44]])).2 = PollOut.item (Except.ok [49]) ∧
    (poll_next (streamJsonArray [[91, 49, 44]])).1.core.comma = true :=
  ⟨rfl, rfl⟩

/-- C6 counterexample: the claim says an input whose source is exhausted
before the outer array closes yields exactly one PrematureEndOfInput error
even under repeated subsequent pulls. On the single chunk holding just the
left bracket (byte 91), two polls yield the UnexpectedEof io error twice:
poll_next never sets the end flag on premature end of input, so every
subsequent poll reports the error again. -/
theorem c6_eof_error_repeats_counterexample :
    drive 2 (streamJsonArray [[91]]) =
      ([Except.error JsonStreamError.Io, Except.error JsonStreamError.Io], false) :=
  rfl

/-- C6 amended: once the source is exhausted while the outer array is still
open (end flag unset, no current chunk, no chunks left), the splitter
yields no successful elements: every poll, for any number of polls, yields
the PrematureEndOfInput io error again, rather than reporting it exactly
once. -/
theorem c6_exhausted_always_eof (n : Nat) :
    ∀ s : JsonArrayStream, s.core.endFlag = false → s.chunk = none → s.stream = [] →
      drive n s = (List.replicate n (Except.error JsonStreamError.Io), false) := by
  induction n with
  | zero => intro s h1 h2 h3; rfl
  | succ n ih =>
    intro s h1 h2 h3
    have hp : poll_next s =
        (⟨s.core, [], none⟩, PollOut.item (Except.error JsonStreamError.Io)) := by
      unfold poll_next
      rw [h1, h2, h3]
      rfl
    simp only [drive, hp, List.replicate]
    rw [ih ⟨s.core, [], none⟩ h1 rfl rfl]

/-- C6 witness: the state reached after the single poll that consumed the
lone left bracket (analyzer stack [Array], empty buffer, flags unset, no
chunk, no stream) satisfies the hypotheses, and two further polls yield the
io error twice. -/
theorem c6_exhausted_always_eof_witness :
    (⟨⟨[ParserState.Array], [], false, false⟩, [], none⟩ : JsonArrayStream).core.endFlag = false ∧
    (⟨⟨[ParserState.Array], [], false, false⟩, [], none⟩ : JsonArrayStream).chunk = none ∧
    (⟨⟨[ParserState.Array], [], false, false⟩, [], none⟩ : JsonArrayStream).stream = [] ∧
    drive 2 (⟨⟨[ParserState.Array], [], false, false⟩, [], none⟩ : JsonArrayStream) =
      (List.replicate 2 (Except.error JsonStreamError.Io), false) :=
  ⟨rfl, rfl, rfl,
    c6_exhausted_always_eof 2 ⟨⟨[ParserState.Array], [], false, false⟩, [], none⟩ rfl rfl rfl⟩

/-- C10: a byte with value 133 (next line) or 160 (no-break space) seen
while the analyzer is at depth 1 never reaches the accumulation buffer and
never triggers an emission: the buffer after the byte equals the buffer
before it and the byte outcome is not an emission. The splitter classifies
the byte through (c as char).is_whitespace(), which holds for these two
Latin-1 code points just as for the ASCII whitespace bytes. -/
theorem c10_latin1_whitespace_discarded (s : SplitCore) (c : Nat)
    (hc : c = 133 ∨ c = 160) (hd : s.analyzer.length = 1) :
    (processByte s c).1.buffer = s.buffer ∧
      ∀ v, (processByte s c).2 ≠ ByteOutcome.emitSpan v := by
  obtain ⟨t, ht⟩ : ∃ t, s.analyzer = [t] := by
    cases ha : s.analyzer with
    | nil => rw [ha] at hd; simp at hd
    | cons a l =>
      cases l with
      | nil => exact ⟨a, rfl⟩
      | cons b m => rw [ha] at hd; simp at hd
  rcases hc with rfl | rfl <;> cases t <;>
    simp [processByte, process, ht, isWhitespaceByte, isEscapeByte, isAsciiHexdigit]

/-- C10 witness: byte 133 at depth 1 inside the outer array (stack [Array])
with an empty buffer is discarded: the buffer is unchanged and no emission
happens. -/
theorem c10_latin1_whitespace_discarded_witness :
    ((133 : Nat) = 133 ∨ (133 : Nat) = 160) ∧
    (⟨[ParserState.Array], [], false, false⟩ : SplitCore).analyzer.length = 1 ∧
    ((processByte ⟨[ParserState.Array], [], false, false⟩ 133).1.buffer =
        (⟨[ParserState.Array], [], false, false⟩ : SplitCore).buffer ∧
      ∀ v, (processByte ⟨[ParserState.Array], [], false, false⟩ 133).2 ≠
        ByteOutcome.emitSpan v) :=
  ⟨Or.inl rfl, rfl,
    c10_latin1_whitespace_discarded ⟨[ParserState.Array], [], false, false⟩ 133
      (Or.inl rfl) rfl⟩

/-- Concatenation of the chunks of a source into one byte sequence. -/
def concatChunks : List (List Nat) → List Nat
  | [] => []
  | h :: t => h ++ concatChunks t

/-- The bytes a splitter state has not yet processed: the remainder of the
current chunk followed by the chunks not yet pulled. -/
def pending (s : JsonArrayStream) : List Nat :=
  s.chunk.getD [] ++ concatChunks s.stream

/-- One poll of the chunking-free model over the flat remaining byte
sequence: run the loop body over the bytes; running out of bytes is the
exhausted source, which yields the io error. -/
def flatStep (s : SplitCore) (bytes : List Nat) : SplitCore × List Nat × PollOut :=
  match runChunk s bytes with
  | (s1, rest, some out) => (s1, rest, out)
  | (s1, _, none) => (s1, [], PollOut.item (Except.error JsonStreamError.Io))

/-- One poll of the chunking-free model including the end-flag short
circuit of poll_next. -/
def flatPoll (s : SplitCore) (bytes : List Nat) : SplitCore × List Nat × PollOut :=
  if s.endFlag then (s, bytes, PollOut.readyNone) else flatStep s bytes

/-- Drives the chunking-free model for at most n polls, like drive. -/
def flatDrive : Nat → SplitCore → List Nat → List (Except JsonStreamError (List Nat)) × Bool
  | 0, _, _ => ([], false)
  | Nat.succ n, s, bytes =>
    match flatPoll s bytes with
    | (_, _, PollOut.readyNone) => ([], true)
    | (s1, rest, PollOut.item r) =>
      let p := flatDrive n s1 rest
      (r :: p.1, p.2)

theorem runChunk_append (a : List Nat) :
    ∀ (b : List Nat) (s : SplitCore),
      runChunk s (a ++ b) =
        match runChunk s a with
        | (s1, rest, some out) => (s1, rest ++ b, some out)
        | (s1, _, none) => runChunk s1 b := by
  induction a with
  | nil => intro b s; simp [runChunk]
  | cons c a ih =>
    intro b s
    simp only [List.cons_append, runChunk]
    rcases hp : processByte s c with ⟨s1, o⟩
    cases o <;> simp [hp, ih]

theorem pollStream_flatStep (stream : List (List Nat)) :
    ∀ s : SplitCore,
      (pollStream s stream).2 = (flatStep s (concatChunks stream)).2.2 ∧
      (pollStream s stream).1.core = (flatStep s (concatChunks stream)).1 ∧
      pending (pollStream s stream).1 = (flatStep s (concatChunks stream)).2.1 := by
  induction stream with
  | nil =>
    intro s
    simp [pollStream, flatStep, runChunk, pending, concatChunks]
  | cons h t ih =>
    intro s
    have ha := runChunk_append h (concatChunks t) s
    rcases hr : runChunk s h with ⟨s1, rest, o⟩
    rw [hr] at ha
    cases o with
    | some out =>
      simp only at ha
      simp [pollStream, flatStep, concatChunks, ha, hr, pending]
    | none =>
      simp only at ha
      have hgoal := ih s1
      simp only [pollStream, hr]
      simpa [flatStep, concatChunks, ha] using hgoal

theorem poll_next_flatPoll (s : JsonArrayStream) :
    (poll_next s).2 = (flatPoll s.core (pending s)).2.2 ∧
    (poll_next s).1.core = (flatPoll s.core (pending s)).1 ∧
    pending (poll_next s).1 = (flatPoll s.core (pending s)).2.1 := by
  by_cases he : s.core.endFlag
  · simp [poll_next, flatPoll, he]
  · cases hc : s.chunk with
    | none =>
      have := pollStream_flatStep s.stream s.core
      simpa [poll_next, flatPoll, he, hc, pending] using this
    | some bytes =>
      have ha := runChunk_append bytes (concatChunks s.stream) s.core
      rcases hr : runChunk s.core bytes with ⟨s1, rest, o⟩
      rw [hr] at ha
      cases o with
      | some out =>
        simp only at ha
        simp [poll_next, flatPoll, flatStep, he, hc, hr, pending, ha]
      | none =>
        simp only at ha
        have hgoal := pollStream_flatStep s.stream s1
        simp only [poll_next, he, if_neg, hc, hr]
        simpa [flatPoll, flatStep, he, pending, hc, ha] using hgoal

theorem drive_flatDrive (n : Nat) :
    ∀ s : JsonArrayStream, drive n s = flatDrive n s.core (pending s) := by
  induction n with
  | zero => intro s; rfl
  | succ n ih =>
    intro s
    obtain ⟨h1, h2, h3⟩ := poll_next_flatPoll s
    rcases hp : poll_next s with ⟨t, o⟩
    rcases hf : flatPoll s.core (pending s) with ⟨s1, rest, o2⟩
    rw [hp, hf] at h1 h2 h3
    simp only at h1 h2 h3
    subst h1
    cases o with
    | readyNone => simp [drive, flatDrive, hp, hf]
    | item r =>
      simp only [drive, flatDrive, hp, hf]
      rw [ih t, h2, h3]

/-- C5: splitting is a pure function of the concatenated bytes: for any two
chunkings of the same byte sequence, driving a fresh splitter over either
chunking for the same number of polls yields the same outputs and the same
completion status, for every number of polls. Since one poll returns
exactly one result (and polls after completion keep returning Ready None),
the bounded drive for every fuel determines the whole output sequence. -/
theorem c5_chunking_invariance (c1 c2 : List (List Nat)) (n : Nat)
    (h : concatChunks c1 = concatChunks c2) :
    drive n (streamJsonArray c1) = drive n (streamJsonArray c2) := by
  rw [drive_flatDrive n (streamJsonArray c1), drive_flatDrive n (streamJsonArray c2)]
  simp [streamJsonArray, pending, h]

/-- C5 witness: the one-chunk and two-chunk deliveries of the array with
the single element 4 (bytes 91 52 93) concatenate to the same bytes and
produce the same outputs under three polls. -/
theorem c5_chunking_invariance_witness :
    concatChunks [[91, 52, 93]] = concatChunks [[91], [52, 93]] ∧
    drive 3 (streamJsonArray [[91, 52, 93]]) = drive 3 (streamJsonArray [[91], [52, 93]]) :=
  ⟨rfl, c5_chunking_invariance [[91, 52, 93]] [[91], [52, 93]] 3 rfl⟩
